import Mathlib

/-!
Verification development for the vehicle-physics simulation core of the
BB1-racing game (single source file, SFML C++).  The numeric state of the
program (C++ float) is embedded as exact rationals.  The transcendental
library routines used by the code (std::sin, std::cos, std::sqrt, std::atan)
are kept abstract as an environment of rational functions, so every
definition below is executable and all theorems quantify over that
environment; nothing in the claims settled here depends on the analytic
values of those routines except where explicitly noted.
-/

set_option linter.unusedVariables false

/-- Environment of transcendental routines the C++ code takes from the
standard library.  All simulation definitions are parametric in it. -/
structure Env where
  sin : ℚ → ℚ
  cos : ℚ → ℚ
  sqrt : ℚ → ℚ
  atan : ℚ → ℚ

/-- Config constant WINDOW_H = 720. -/
def WINDOW_H : ℚ := 720

/-- Config constant PPM = 8 (pixels per meter). -/
def PPM : ℚ := 8

/-- Config constant GRAVITY = 40 px/s^2. -/
def GRAVITY : ℚ := 40

/-- Config constant DT_FIXED = 1/120 s (fixed-step physics). -/
def DT_FIXED : ℚ := 1 / 120

/-- Fuel rule constant FUEL_TANK_METERS = 100. -/
def FUEL_TANK_METERS : ℚ := 100

/-- Fuel rule constant FUEL_CAN_GAP_M = 80. -/
def FUEL_CAN_GAP_M : ℚ := 80

/-- Coin rule constant COINS_PER_LEVEL = 20. -/
def COINS_PER_LEVEL : ℕ := 20

/-- Level lengths in meters: LEVEL_METERS[5] = {300, 500, 700, 900, 1100}. -/
def LEVEL_METERS (idx : ℕ) : ℚ := [300, 500, 700, 900, 1100].getD idx 0

/-- Helper clampf(v, lo, hi) = max(lo, min(v, hi)). -/
def clampf (v lo hi : ℚ) : ℚ := max lo (min v hi)

/-- Conversion m2px: meters to pixels. -/
def m2px (m : ℚ) : ℚ := m * PPM

/-- Conversion px2m: pixels to meters. -/
def px2m (px : ℚ) : ℚ := px / PPM

/-- Result record of the terrain sampler: ground height y (px) and slope. -/
structure GroundSample where
  y : ℚ
  slope : ℚ
deriving DecidableEq

/-- Ground height term from sampleGround: base minus three sinusoids.  The
C++ source computes this expression twice (at x and at x + dx); it is
factored here so both occurrences are literally the same formula. -/
def groundHeight (env : Env) (x_px : ℚ) (levelIndex : ℕ) : ℚ :=
  let base := WINDOW_H * 0.80
  let rough := 15 + (levelIndex : ℚ) * 10
  let freq1 := 1 / 140 + (levelIndex : ℚ) * 0.0008
  let freq2 := 1 / 280 + (levelIndex : ℚ) * 0.0005
  base
    - rough * env.sin (x_px * freq1)
    - 0.6 * rough * env.sin (x_px * freq2 + 1.7)
    - 0.3 * rough * env.sin (x_px * (freq1 * 2.3) + 0.6)

/-- Terrain sampler sampleGround: height at x and numerical slope via the
small delta dx = 1.0 (forward difference). -/
def sampleGround (env : Env) (x_px : ℚ) (levelIndex : ℕ) : GroundSample :=
  { y := groundHeight env x_px levelIndex
    slope := (groundHeight env (x_px + 1) levelIndex - groundHeight env x_px levelIndex) / 1 }

/-- Spec-side amplitude table for the three sinusoids (reference definition
written from the spec text for the refinement claim C8): each amplitude is a
positive multiple of the roughness 15 + 10 * levelIndex. -/
def specAmp (i : Fin 3) (levelIndex : ℕ) : ℚ :=
  match i with
  | 0 => 15 + (levelIndex : ℚ) * 10
  | 1 => 0.6 * (15 + (levelIndex : ℚ) * 10)
  | 2 => 0.3 * (15 + (levelIndex : ℚ) * 10)

/-- Spec-side spatial-frequency table for the three sinusoids (reference
definition written from the spec text for the refinement claim C8). -/
def specFreq (i : Fin 3) (levelIndex : ℕ) : ℚ :=
  match i with
  | 0 => 1 / 140 + (levelIndex : ℚ) * 0.0008
  | 1 => 1 / 280 + (levelIndex : ℚ) * 0.0005
  | 2 => (1 / 140 + (levelIndex : ℚ) * 0.0008) * 2.3

/-- Spec-side phase table for the three sinusoids. -/
def specPhase (i : Fin 3) : ℚ :=
  match i with
  | 0 => 0
  | 1 => 1.7
  | 2 => 0.6

/-- Spec-side constant baseline height. -/
def specBaseline : ℚ := WINDOW_H * 0.80

/-- Spec-side small fixed delta for the forward finite difference. -/
def specEps : ℚ := 1

/-- Spec-side reference height: a constant baseline minus a sum of three
sinusoids (reference definition for the refinement claim C8). -/
def specHeight (env : Env) (x_px : ℚ) (levelIndex : ℕ) : ℚ :=
  specBaseline - ∑ i : Fin 3, specAmp i levelIndex * env.sin (specFreq i levelIndex * x_px + specPhase i)

/-- Spec-side reference sampler: height and forward finite-difference slope
(height(x+eps) - height(x)) / eps (reference definition for claim C8). -/
def sampleGroundSpec (env : Env) (x_px : ℚ) (levelIndex : ℕ) : GroundSample :=
  { y := specHeight env x_px levelIndex
    slope := (specHeight env (x_px + specEps) levelIndex - specHeight env x_px levelIndex) / specEps }

/-- Entity FuelCan: position and taken flag. -/
structure FuelCan where
  x_px : ℚ
  taken : Bool
deriving DecidableEq

/-- Entity Coin: hover position and taken flag. -/
structure Coin where
  x_px : ℚ
  y_px : ℚ
  taken : Bool
deriving DecidableEq

/-- Vehicle geometry constant bodyW = 90 px. -/
def bodyW : ℚ := 90

/-- Vehicle geometry constant bodyH = 28 px. -/
def bodyH : ℚ := 28

/-- Vehicle geometry constant wheelBase = 70 px. -/
def wheelBase : ℚ := 70

/-- Vehicle geometry constant wheelR = 18 px. -/
def wheelR : ℚ := 18

/-- Vehicle kinematic state and control flags.  The geometry fields of the
C++ struct are initialized literals that are never reassigned; they are
embedded as the constants above. -/
structure Vehicle where
  x_px : ℚ
  y_px : ℚ
  vx : ℚ
  vy : ℚ
  angle : ℚ
  angV : ℚ
  pressingLeft : Bool
  pressingRight : Bool
deriving DecidableEq

/-- Local-to-world transform of Vehicle: rotate the local offset by the
current orientation and translate by the current position. -/
def localToWorld (env : Env) (V : Vehicle) (lx ly : ℚ) : ℚ × ℚ :=
  let c := env.cos V.angle
  let s := env.sin V.angle
  (V.x_px + c * lx - s * ly, V.y_px + s * lx + c * ly)

/-- Front wheel world position. -/
def frontWheelPos (env : Env) (V : Vehicle) : ℚ × ℚ :=
  localToWorld env V (wheelBase * 0.5) (bodyH * 0.5)

/-- Rear wheel world position. -/
def rearWheelPos (env : Env) (V : Vehicle) : ℚ × ℚ :=
  localToWorld env V (-(wheelBase * 0.5)) (bodyH * 0.5)

/-- Head world position. -/
def headPos (env : Env) (V : Vehicle) : ℚ × ℚ :=
  localToWorld env V 0 (-(bodyH * 0.9))

/-- Local-to-world transform against a tentative (not yet committed)
position and orientation. -/
def localToWorldTemp (env : Env) (tempX tempY tempAngle lx ly : ℚ) : ℚ × ℚ :=
  let c := env.cos tempAngle
  let s := env.sin tempAngle
  (tempX + c * lx - s * ly, tempY + s * lx + c * ly)

/-- Game screens. -/
inductive Screen where
  | Menu
  | Playing
  | GameOver
  | LevelComplete
  | Exit
  | GameCompleted
deriving DecidableEq

/-- Level record: index, lengths, finish threshold, pickups. -/
structure Level where
  index : ℕ
  length_m : ℚ
  length_px : ℚ
  finishX_px : ℚ
  cans : List FuelCan
  coins : List Coin
deriving DecidableEq

/-- Simulation-relevant game state (the fields of the C++ Game struct that
the physics core and progression tracker read and write). -/
structure GameS where
  screen : Screen
  unlockedLevels : ℕ
  currentLevel : ℕ
  car : Vehicle
  level : Level
  fuel_m : ℚ
  lastX_forFuel_px : ℚ
  coinsCollected : ℕ
  levelDistance_m : ℚ
  totalDistance_m : ℚ
  totalCoins : ℕ
  headHitGround : Bool
  fuel_out_timer : ℚ
deriving DecidableEq

/-- First wrap loop of the slope-alignment code: while (da > 3.14159)
da -= 6.28318. -/
def wrapDown (da : ℚ) : ℚ :=
  if h : da > 3.14159 then wrapDown (da - 6.28318) else da
termination_by (⌈(da - 3.14159) / 6.28318⌉).toNat
decreasing_by
  have hp : (0 : ℚ) < 6.28318 := by norm_num
  have ht : (0 : ℚ) < (da - 3.14159) / 6.28318 := div_pos (by linarith) hp
  have he : (da - 6.28318 - 3.14159) / 6.28318 = (da - 3.14159) / 6.28318 - 1 := by
    field_simp
    ring
  have h2 : ⌈(da - 6.28318 - 3.14159) / 6.28318⌉ = ⌈(da - 3.14159) / 6.28318⌉ - 1 := by
    rw [he]
    rw [show ((1 : ℚ)) = ((1 : ℤ) : ℚ) by norm_num]
    exact Int.ceil_sub_int _ 1
  have h3 : 0 < ⌈(da - 3.14159) / 6.28318⌉ := Int.ceil_pos.mpr ht
  omega

/-- Second wrap loop of the slope-alignment code: while (da < -3.14159)
da += 6.28318. -/
def wrapUp (da : ℚ) : ℚ :=
  if h : da < -3.14159 then wrapUp (da + 6.28318) else da
termination_by (⌈(-3.14159 - da) / 6.28318⌉).toNat
decreasing_by
  have hp : (0 : ℚ) < 6.28318 := by norm_num
  have ht : (0 : ℚ) < (-3.14159 - da) / 6.28318 := div_pos (by linarith) hp
  have he : (-3.14159 - (da + 6.28318)) / 6.28318 = (-3.14159 - da) / 6.28318 - 1 := by
    field_simp
    ring
  have h2 : ⌈(-3.14159 - (da + 6.28318)) / 6.28318⌉ = ⌈(-3.14159 - da) / 6.28318⌉ - 1 := by
    rw [he]
    rw [show ((1 : ℚ)) = ((1 : ℤ) : ℚ) by norm_num]
    exact Int.ceil_sub_int _ 1
  have h3 : 0 < ⌈(-3.14159 - da) / 6.28318⌉ := Int.ceil_pos.mpr ht
  omega

/-- Angle-difference wrap used by the wheel-ground alignment: the two while
loops of the C++ code run in source order. -/
def wrapAngle (da : ℚ) : ℚ := wrapUp (wrapDown da)

/-- Tentative ground-contact test of stepVehicle: a wheel world position is
grounded when wp.y - (groundY - wheelR) > 0. -/
def contactB (env : Env) (levelIndex : ℕ) (wp : ℚ × ℚ) : Bool :=
  let gs := sampleGround env wp.1 levelIndex
  let groundY := gs.y - wheelR
  let dy := wp.2 - groundY
  decide (dy > 0)

/-- Input-force section of stepVehicle (source lines 294-317): gated on
fuel > 0; forward input adds thrust along the tentative facing direction
when tentatively grounded and always applies the flip torque; backward
input symmetrically.  Returns (vx, vy, angV). -/
def inputForces (env : Env) (fuel_m : ℚ) (onGroundTentative : Bool) (tempAngle dt : ℚ)
    (pressingLeft pressingRight : Bool) (vx vy angV : ℚ) : ℚ × ℚ × ℚ :=
  if fuel_m > 0 then
    let accel : ℚ := 300
    let torque : ℚ := 1.8
    let a1 :=
      if pressingRight then
        (if onGroundTentative then
            (vx + accel * dt * env.cos tempAngle, vy + accel * dt * env.sin tempAngle)
          else (vx, vy),
         angV - torque * dt)
      else ((vx, vy), angV)
    let a2 :=
      if pressingLeft then
        (if onGroundTentative then
            (a1.1.1 - accel * dt * env.cos tempAngle, a1.1.2 - accel * dt * env.sin tempAngle)
          else a1.1,
         a1.2 + torque * dt)
      else a1
    (a2.1.1, a2.1.2, a2.2)
  else (vx, vy, angV)

/-- Wheel-ground collision and alignment for one wheel (the fixWheel lambda
of stepVehicle): on penetration, push the chassis up by the penetration
depth, clamp vy to min(0, vy), and move the orientation toward
atan(slope) by at most alignRate = 4.5 * dt, with the difference wrapped
first.  Also counts grounded wheels. -/
def fixWheel (env : Env) (levelIndex : ℕ) (dt : ℚ) (V : Vehicle) (wp : ℚ × ℚ)
    (wheelsOnGround : ℕ) : Vehicle × ℕ :=
  let gs := sampleGround env wp.1 levelIndex
  let groundY := gs.y - wheelR
  let dy := wp.2 - groundY
  if dy > 0 then
    let targetAngle := env.atan gs.slope
    let alignRate := 4.5 * dt
    let da := wrapAngle (targetAngle - V.angle)
    ({ V with
        y_px := V.y_px - dy
        vy := min 0 V.vy
        angle := V.angle + clampf da (-alignRate) alignRate },
      wheelsOnGround + 1)
  else (V, wheelsOnGround)

/-- Physics stepper stepVehicle: gravity, tentative contact test, input
forces, integration, per-wheel penetration resolution, ground friction and
air drag, in the source order. -/
def stepVehicle (env : Env) (dt : ℚ) (G : GameS) : GameS :=
  let V := G.car
  let vy1 := V.vy + GRAVITY * dt
  let tempX := V.x_px + V.vx * dt
  let tempY := V.y_px + vy1 * dt
  let tempAngle := V.angle + V.angV * dt
  let tempFront := localToWorldTemp env tempX tempY tempAngle (wheelBase * 0.5) (bodyH * 0.5)
  let tempRear := localToWorldTemp env tempX tempY tempAngle (-(wheelBase * 0.5)) (bodyH * 0.5)
  let onGroundTentative :=
    contactB env G.currentLevel tempFront || contactB env G.currentLevel tempRear
  let iv := inputForces env G.fuel_m onGroundTentative tempAngle dt
    V.pressingLeft V.pressingRight V.vx vy1 V.angV
  let vx2 := iv.1
  let vy2 := iv.2.1
  let angV2 := iv.2.2
  let V3 : Vehicle :=
    { V with
        x_px := V.x_px + vx2 * dt
        y_px := V.y_px + vy2 * dt
        angle := V.angle + angV2 * dt
        vx := vx2
        vy := vy2
        angV := angV2 }
  let p1 := fixWheel env G.currentLevel dt V3 (frontWheelPos env V3) 0
  let p2 := fixWheel env G.currentLevel dt p1.1 (rearWheelPos env p1.1) p1.2
  let V6 := p2.1
  let wheelsOnGround := p2.2
  let V7 :=
    if wheelsOnGround > 0 then
      { V6 with
          vx := V6.vx * (if G.fuel_m > 0 then 0.999 else 0.99)
          angV := V6.angV * 0.92 }
    else V6
  let V8 := { V7 with vx := V7.vx * 0.9998, angV := V7.angV * 0.999 }
  { G with car := V8 }

/-- Proximity test for one fuel can (updateFuelAndPickups, can loop): the
nearest of chassis center, front wheel and rear wheel must come within
30 px of the can drawn at (c.x, ground(c.x) - 18). -/
def canWithin (env : Env) (levelIndex : ℕ) (pos fw rw : ℚ × ℚ) (c : FuelCan) : Bool :=
  let gs := sampleGround env c.x_px levelIndex
  let canY := gs.y - 18
  let dist_c := env.sqrt ((c.x_px - pos.1) * (c.x_px - pos.1) + (canY - pos.2) * (canY - pos.2))
  let dist_f := env.sqrt ((c.x_px - fw.1) * (c.x_px - fw.1) + (canY - fw.2) * (canY - fw.2))
  let dist_r := env.sqrt ((c.x_px - rw.1) * (c.x_px - rw.1) + (canY - rw.2) * (canY - rw.2))
  decide (min (min dist_c dist_f) dist_r < 30)

/-- Proximity test for one coin (updateFuelAndPickups, coin loop): nearest
of the three anchors within 28 px of the coin hover position. -/
def coinWithin (env : Env) (pos fw rw : ℚ × ℚ) (c : Coin) : Bool :=
  let dist_c := env.sqrt ((c.x_px - pos.1) * (c.x_px - pos.1) + (c.y_px - pos.2) * (c.y_px - pos.2))
  let dist_f := env.sqrt ((c.x_px - fw.1) * (c.x_px - fw.1) + (c.y_px - fw.2) * (c.y_px - fw.2))
  let dist_r := env.sqrt ((c.x_px - rw.1) * (c.x_px - rw.1) + (c.y_px - rw.2) * (c.y_px - rw.2))
  decide (min (min dist_c dist_f) dist_r < 28)

/-- Fuel-can loop of updateFuelAndPickups: each untaken can within radius
becomes taken and sets the threaded fuel value to the full tank. -/
def cansLoop (env : Env) (levelIndex : ℕ) (pos fw rw : ℚ × ℚ) :
    List FuelCan → ℚ → List FuelCan × ℚ
  | [], fuel_m => ([], fuel_m)
  | c :: rest, fuel_m =>
    if c.taken then
      let p := cansLoop env levelIndex pos fw rw rest fuel_m
      (c :: p.1, p.2)
    else if canWithin env levelIndex pos fw rw c then
      let p := cansLoop env levelIndex pos fw rw rest FUEL_TANK_METERS
      ({ c with taken := true } :: p.1, p.2)
    else
      let p := cansLoop env levelIndex pos fw rw rest fuel_m
      (c :: p.1, p.2)

/-- Coin loop of updateFuelAndPickups: each untaken coin within radius
becomes taken and increments the threaded coin counter. -/
def coinsLoop (env : Env) (pos fw rw : ℚ × ℚ) :
    List Coin → ℕ → List Coin × ℕ
  | [], n => ([], n)
  | c :: rest, n =>
    if c.taken then
      let p := coinsLoop env pos fw rw rest n
      (c :: p.1, p.2)
    else if coinWithin env pos fw rw c then
      let p := coinsLoop env pos fw rw rest (n + 1)
      ({ c with taken := true } :: p.1, p.2)
    else
      let p := coinsLoop env pos fw rw rest n
      (c :: p.1, p.2)

/-- Per-element marking function realised by the can loop. -/
def canMark (env : Env) (levelIndex : ℕ) (pos fw rw : ℚ × ℚ) (c : FuelCan) : FuelCan :=
  if c.taken then c
  else if canWithin env levelIndex pos fw rw c then { c with taken := true }
  else c

/-- Per-element marking function realised by the coin loop. -/
def coinMark (env : Env) (pos fw rw : ℚ × ℚ) (c : Coin) : Coin :=
  if c.taken then c
  else if coinWithin env pos fw rw c then { c with taken := true }
  else c

/-- Progression tracker updateFuelAndPickups: deduct fuel by horizontal
distance traveled (floored at zero), accumulate level distance, then run
the can and coin pickup loops. -/
def updateFuelAndPickups (env : Env) (G : GameS) : GameS :=
  let dx_px := |G.car.x_px - G.lastX_forFuel_px|
  let G1 :=
    if dx_px > 0 then
      { G with
          fuel_m := max 0 (G.fuel_m - px2m dx_px)
          levelDistance_m := G.levelDistance_m + px2m dx_px
          lastX_forFuel_px := G.car.x_px }
    else G
  let fw := frontWheelPos env G1.car
  let rw := rearWheelPos env G1.car
  let pc := cansLoop env G1.currentLevel (G1.car.x_px, G1.car.y_px) fw rw G1.level.cans G1.fuel_m
  let G2 := { G1 with level := { G1.level with cans := pc.1 }, fuel_m := pc.2 }
  let qc := coinsLoop env (G2.car.x_px, G2.car.y_px) fw rw G2.level.coins G2.coinsCollected
  { G2 with level := { G2.level with coins := qc.1 }, coinsCollected := qc.2 }

/-- Head-ground collision test checkHeadHit: head world height at or below
ground height with a 3 px tolerance. -/
def checkHeadHit (env : Env) (G : GameS) : Bool :=
  let hp := headPos env G.car
  let gs := sampleGround env hp.1 G.currentLevel
  decide (hp.2 ≥ gs.y - 3)

/-- Fuel-out timer update of the main loop (source lines 989-1000): with
fuel exhausted the timer arms at 5 s then counts down one fixed tick per
tick; any positive fuel resets it to -1. -/
def timerStep (fuel_m timer : ℚ) : ℚ :=
  if fuel_m ≤ 0 then (if timer < 0 then 5 else timer - DT_FIXED) else -1

/-- Timer trajectory under sustained zero fuel, starting from the disarmed
value -1. -/
def timerSeq : ℕ → ℚ
  | 0 => -1
  | n + 1 => timerStep 0 (timerSeq n)

/-- End-of-tick bookkeeping of the fixed-step loop (source lines 984-1024),
given the Boolean result hh of checkHeadHit for this tick: record a head
hit, update the fuel-out timer, then run the finish-line block and the
game-over block in source order. -/
def endTick (hh : Bool) (G : GameS) : GameS :=
  let G1 := { G with headHitGround := G.headHitGround || hh }
  let G2 := { G1 with fuel_out_timer := timerStep G1.fuel_m G1.fuel_out_timer }
  let G3 : GameS :=
    if G2.car.x_px ≥ G2.level.finishX_px then
      let G2t :=
        { G2 with
            totalDistance_m := G2.totalDistance_m + G2.levelDistance_m
            totalCoins := G2.totalCoins + G2.coinsCollected }
      if G2.currentLevel + 1 < 5 then
        { G2t with
            unlockedLevels := max G2t.unlockedLevels (G2.currentLevel + 2)
            screen := Screen.LevelComplete }
      else { G2t with screen := Screen.GameCompleted }
    else G2
  if (G3.fuel_out_timer ≤ 0 ∧ (-1 : ℚ) < G3.fuel_out_timer) ∨ G3.headHitGround = true then
    { G3 with
        totalDistance_m := G3.totalDistance_m + G3.levelDistance_m
        totalCoins := G3.totalCoins + G3.coinsCollected
        screen := Screen.GameOver }
  else G3

/-- One full fixed tick while playing: stepVehicle, updateFuelAndPickups,
then the end-of-tick bookkeeping with the head-hit test evaluated on the
post-physics state.  The main loop runs this body only while the screen is
Playing. -/
def tick (env : Env) (G : GameS) : GameS :=
  let S1 := stepVehicle env DT_FIXED G
  let S2 := updateFuelAndPickups env S1
  endTick (checkHeadHit env S2) S2

/-- Fuel-can placement loop of buildLevel: cans every m2px(80) px starting
at m2px(20), strictly before the finish line. -/
def cansFrom (finishX_px x : ℚ) : List FuelCan :=
  if h : x < finishX_px then
    { x_px := x, taken := false } :: cansFrom finishX_px (x + m2px FUEL_CAN_GAP_M)
  else []
termination_by (⌈(finishX_px - x) / 640⌉).toNat
decreasing_by
  have hp : (0 : ℚ) < 640 := by norm_num
  have ht : (0 : ℚ) < (finishX_px - x) / 640 := div_pos (by linarith) hp
  have he : (finishX_px - (x + m2px FUEL_CAN_GAP_M)) / 640 = (finishX_px - x) / 640 - 1 := by
    rw [m2px, FUEL_CAN_GAP_M, PPM]
    field_simp
    ring
  have h2 : ⌈(finishX_px - (x + m2px FUEL_CAN_GAP_M)) / 640⌉ = ⌈(finishX_px - x) / 640⌉ - 1 := by
    rw [he]
    rw [show ((1 : ℚ)) = ((1 : ℤ) : ℚ) by norm_num]
    exact Int.ceil_sub_int _ 1
  have h3 : 0 < ⌈(finishX_px - x) / 640⌉ := Int.ceil_pos.mpr ht
  omega

/-- Level builder buildLevel: sets level geometry from LEVEL_METERS, places
cans and coins, resets run progress, and places the vehicle at the start
with the small initial tilt 0.02. -/
def buildLevel (env : Env) (idx : ℕ) (G : GameS) : GameS :=
  let length_m := LEVEL_METERS idx
  let length_px := m2px length_m
  let finishX_px := length_px
  let cans := cansFrom finishX_px (m2px 20)
  let coinGap_px := length_px / ((COINS_PER_LEVEL : ℚ) + 1)
  let coins := (List.range COINS_PER_LEVEL).map (fun i =>
    let x := ((i : ℚ) + 1) * coinGap_px
    let g := sampleGround env x idx
    ({ x_px := x, y_px := g.y - 50, taken := false } : Coin))
  let g0 := sampleGround env 0 idx
  { G with
      currentLevel := idx
      level :=
        { index := idx, length_m := length_m, length_px := length_px
          finishX_px := finishX_px, cans := cans, coins := coins }
      fuel_m := FUEL_TANK_METERS
      lastX_forFuel_px := 0
      levelDistance_m := 0
      coinsCollected := 0
      headHitGround := false
      fuel_out_timer := -1
      car :=
        { G.car with
            x_px := 10
            y_px := g0.y - wheelR - bodyH * 0.5 - 2
            vx := 0
            vy := 0
            angle := 0.02
            angV := 0
            pressingLeft := false
            pressingRight := false } }

/-- Concrete environment used by witnesses: every library routine returns
zero (terrain is then the flat line y = 576 and every proximity test
passes). -/
def envZero : Env := { sin := fun _ => 0, cos := fun _ => 0, sqrt := fun _ => 0, atan := fun _ => 0 }

/-- Concrete environment used by witnesses: sqrt is the constant 100, so no
proximity test passes. -/
def envFar : Env := { sin := fun _ => 0, cos := fun _ => 0, sqrt := fun _ => 100, atan := fun _ => 0 }

/-- Concrete state at the start of the tick on which fuel has been out for
exactly 600 previous ticks (timer exactly one tick from expiry) while the
car is exactly on the finish line of level 0: both the finish condition and
the fuel-out expiry fire on this tick. -/
def S0 : GameS :=
  { screen := Screen.Playing
    unlockedLevels := 1
    currentLevel := 0
    car :=
      { x_px := 2400, y_px := 0, vx := 0, vy := 0, angle := 0, angV := 0
        pressingLeft := false, pressingRight := false }
    level :=
      { index := 0, length_m := 300, length_px := 2400, finishX_px := 2400
        cans := [], coins := [] }
    fuel_m := 0
    lastX_forFuel_px := 2400
    coinsCollected := 5
    levelDistance_m := 100
    totalDistance_m := 0
    totalCoins := 0
    headHitGround := false
    fuel_out_timer := 1 / 120 }

/-- Concrete mid-attempt state used by witnesses: car high above the flat
envZero terrain, one taken and one untaken can, one untaken and one taken
coin. -/
def Swit : GameS :=
  { screen := Screen.Playing
    unlockedLevels := 1
    currentLevel := 0
    car :=
      { x_px := 100, y_px := 0, vx := 0, vy := 0, angle := 0, angV := 0
        pressingLeft := false, pressingRight := false }
    level :=
      { index := 0, length_m := 300, length_px := 2400, finishX_px := 2400
        cans := [{ x_px := 160, taken := true }, { x_px := 800, taken := false }]
        coins := [{ x_px := 120, y_px := 526, taken := false },
                  { x_px := 240, y_px := 526, taken := true }] }
    fuel_m := 50
    lastX_forFuel_px := 100
    coinsCollected := 3
    levelDistance_m := 10
    totalDistance_m := 0
    totalCoins := 0
    headHitGround := false
    fuel_out_timer := -1 }

theorem wrapDown_spec (n : ℕ) : ∀ da : ℚ, (⌈(da - 3.14159) / 6.28318⌉).toNat ≤ n →
    wrapDown da ≤ 3.14159 ∧ (-3.14159 < wrapDown da ∨ wrapDown da = da) ∧
      ∃ k : ℤ, wrapDown da = da - k * 6.28318 := by
  induction n with
  | zero =>
    intro da hm
    have hda : ¬ da > 3.14159 := by
      intro hgt
      have ht : (0 : ℚ) < (da - 3.14159) / 6.28318 := div_pos (by linarith) (by norm_num)
      have h3 : 0 < ⌈(da - 3.14159) / 6.28318⌉ := Int.ceil_pos.mpr ht
      omega
    rw [wrapDown, dif_neg hda]
    refine ⟨by linarith [not_lt.mp hda], Or.inr rfl, 0, by ring⟩
  | succ n ih =>
    intro da hm
    by_cases hda : da > 3.14159
    · rw [wrapDown, dif_pos hda]
      have ht : (0 : ℚ) < (da - 3.14159) / 6.28318 := div_pos (by linarith) (by norm_num)
      have h3 : 0 < ⌈(da - 3.14159) / 6.28318⌉ := Int.ceil_pos.mpr ht
      have he : (da - 6.28318 - 3.14159) / 6.28318 = (da - 3.14159) / 6.28318 - 1 := by
        field_simp
        ring
      have h2 : ⌈(da - 6.28318 - 3.14159) / 6.28318⌉ = ⌈(da - 3.14159) / 6.28318⌉ - 1 := by
        rw [he, show ((1 : ℚ)) = ((1 : ℤ) : ℚ) by norm_num]
        exact Int.ceil_sub_int _ 1
      have hm2 : (⌈(da - 6.28318 - 3.14159) / 6.28318⌉).toNat ≤ n := by omega
      obtain ⟨hle, hlow, k, hk⟩ := ih (da - 6.28318) hm2
      refine ⟨hle, ?_, k + 1, by push_cast; linarith⟩
      rcases hlow with h | h
      · exact Or.inl h
      · exact Or.inl (by rw [h]; linarith)
    · rw [wrapDown, dif_neg hda]
      refine ⟨by linarith [not_lt.mp hda], Or.inr rfl, 0, by ring⟩

theorem wrapUp_spec (n : ℕ) : ∀ da : ℚ, (⌈(-3.14159 - da) / 6.28318⌉).toNat ≤ n →
    -3.14159 ≤ wrapUp da ∧ (wrapUp da < 3.14159 ∨ wrapUp da = da) ∧
      ∃ k : ℤ, wrapUp da = da + k * 6.28318 := by
  induction n with
  | zero =>
    intro da hm
    have hda : ¬ da < -3.14159 := by
      intro hlt
      have ht : (0 : ℚ) < (-3.14159 - da) / 6.28318 := div_pos (by linarith) (by norm_num)
      have h3 : 0 < ⌈(-3.14159 - da) / 6.28318⌉ := Int.ceil_pos.mpr ht
      omega
    rw [wrapUp, dif_neg hda]
    refine ⟨by linarith [not_lt.mp hda], Or.inr rfl, 0, by ring⟩
  | succ n ih =>
    intro da hm
    by_cases hda : da < -3.14159
    · rw [wrapUp, dif_pos hda]
      have ht : (0 : ℚ) < (-3.14159 - da) / 6.28318 := div_pos (by linarith) (by norm_num)
      have h3 : 0 < ⌈(-3.14159 - da) / 6.28318⌉ := Int.ceil_pos.mpr ht
      have he : (-3.14159 - (da + 6.28318)) / 6.28318 = (-3.14159 - da) / 6.28318 - 1 := by
        field_simp
        ring
      have h2 : ⌈(-3.14159 - (da + 6.28318)) / 6.28318⌉ = ⌈(-3.14159 - da) / 6.28318⌉ - 1 := by
        rw [he, show ((1 : ℚ)) = ((1 : ℤ) : ℚ) by norm_num]
        exact Int.ceil_sub_int _ 1
      have hm2 : (⌈(-3.14159 - (da + 6.28318)) / 6.28318⌉).toNat ≤ n := by omega
      obtain ⟨hge, hup, k, hk⟩ := ih (da + 6.28318) hm2
      refine ⟨hge, ?_, k + 1, by push_cast; linarith⟩
      rcases hup with h | h
      · exact Or.inl h
      · exact Or.inl (by rw [h]; linarith)
    · rw [wrapUp, dif_neg hda]
      refine ⟨by linarith [not_lt.mp hda], Or.inr rfl, 0, by ring⟩

theorem wrapAngle_le (da : ℚ) : wrapAngle da ≤ 3.14159 := by
  obtain ⟨hd1, hd2, _⟩ := wrapDown_spec (⌈(da - 3.14159) / 6.28318⌉).toNat da le_rfl
  obtain ⟨hu1, hu2, _⟩ :=
    wrapUp_spec (⌈(-3.14159 - wrapDown da) / 6.28318⌉).toNat (wrapDown da) le_rfl
  rw [wrapAngle]
  rcases hu2 with h | h
  · linarith
  · rw [h]; exact hd1

theorem wrapAngle_ge (da : ℚ) : -3.14159 ≤ wrapAngle da := by
  obtain ⟨hu1, _, _⟩ :=
    wrapUp_spec (⌈(-3.14159 - wrapDown da) / 6.28318⌉).toNat (wrapDown da) le_rfl
  rw [wrapAngle]
  exact hu1

theorem wrapAngle_congruent (da : ℚ) : ∃ k : ℤ, wrapAngle da = da - k * 6.28318 := by
  obtain ⟨_, _, k1, hk1⟩ := wrapDown_spec (⌈(da - 3.14159) / 6.28318⌉).toNat da le_rfl
  obtain ⟨_, _, k2, hk2⟩ :=
    wrapUp_spec (⌈(-3.14159 - wrapDown da) / 6.28318⌉).toNat (wrapDown da) le_rfl
  exact ⟨k1 - k2, by rw [wrapAngle, hk2, hk1]; push_cast; ring⟩

theorem clampf_abs_le (x r : ℚ) (hr : 0 ≤ r) : |clampf x (-r) r| ≤ r := by
  rw [clampf, abs_le]
  constructor
  · exact le_max_left _ _
  · exact max_le (by linarith) (min_le_right _ _)

theorem cansLoop_fst (env : Env) (lvl : ℕ) (pos fw rw : ℚ × ℚ) :
    ∀ (cans : List FuelCan) (fuel_m : ℚ),
      (cansLoop env lvl pos fw rw cans fuel_m).1 = cans.map (canMark env lvl pos fw rw) := by
  intro cans
  induction cans with
  | nil => intro fuel_m; simp [cansLoop]
  | cons c rest ih =>
    intro fuel_m
    by_cases h1 : c.taken
    · simp [cansLoop, canMark, h1, ih]
    · by_cases h2 : canWithin env lvl pos fw rw c
      · simp [cansLoop, canMark, h1, h2, ih]
      · simp [cansLoop, canMark, h1, h2, ih]

theorem cansLoop_snd (env : Env) (lvl : ℕ) (pos fw rw : ℚ × ℚ) :
    ∀ (cans : List FuelCan) (fuel_m : ℚ),
      (cansLoop env lvl pos fw rw cans fuel_m).2 =
        if cans.any (fun c => !c.taken && canWithin env lvl pos fw rw c) then FUEL_TANK_METERS
        else fuel_m := by
  intro cans
  induction cans with
  | nil => intro fuel_m; simp [cansLoop]
  | cons c rest ih =>
    intro fuel_m
    by_cases h1 : c.taken
    · simp [cansLoop, h1, ih]
    · by_cases h2 : canWithin env lvl pos fw rw c
      · simp [cansLoop, h1, h2, ih]
      · simp [cansLoop, h1, h2, ih]

theorem coinsLoop_fst (env : Env) (pos fw rw : ℚ × ℚ) :
    ∀ (coins : List Coin) (n : ℕ),
      (coinsLoop env pos fw rw coins n).1 = coins.map (coinMark env pos fw rw) := by
  intro coins
  induction coins with
  | nil => intro n; simp [coinsLoop]
  | cons c rest ih =>
    intro n
    by_cases h1 : c.taken
    · simp [coinsLoop, coinMark, h1, ih]
    · by_cases h2 : coinWithin env pos fw rw c
      · simp [coinsLoop, coinMark, h1, h2, ih]
      · simp [coinsLoop, coinMark, h1, h2, ih]

theorem coinsLoop_snd (env : Env) (pos fw rw : ℚ × ℚ) :
    ∀ (coins : List Coin) (n : ℕ),
      (coinsLoop env pos fw rw coins n).2 =
        n + coins.countP (fun c => !c.taken && coinWithin env pos fw rw c) := by
  intro coins
  induction coins with
  | nil => intro n; simp [coinsLoop]
  | cons c rest ih =>
    intro n
    by_cases h1 : c.taken
    · simp [coinsLoop, List.countP_cons, h1, ih]
    · by_cases h2 : coinWithin env pos fw rw c
      · simp [coinsLoop, List.countP_cons, h1, h2, ih]
        omega
      · simp [coinsLoop, List.countP_cons, h1, h2, ih]

theorem update_car (env : Env) (G : GameS) :
    (updateFuelAndPickups env G).car = G.car := by
  simp only [updateFuelAndPickups]
  split <;> rfl

theorem update_cans (env : Env) (G : GameS) :
    (updateFuelAndPickups env G).level.cans =
      G.level.cans.map (canMark env G.currentLevel (G.car.x_px, G.car.y_px)
        (frontWheelPos env G.car) (rearWheelPos env G.car)) := by
  simp only [updateFuelAndPickups]
  split <;> simp [cansLoop_fst]

theorem update_coins (env : Env) (G : GameS) :
    (updateFuelAndPickups env G).level.coins =
      G.level.coins.map (coinMark env (G.car.x_px, G.car.y_px)
        (frontWheelPos env G.car) (rearWheelPos env G.car)) := by
  simp only [updateFuelAndPickups]
  split <;> simp [coinsLoop_fst]

theorem update_coinsCollected (env : Env) (G : GameS) :
    (updateFuelAndPickups env G).coinsCollected =
      G.coinsCollected + G.level.coins.countP (fun c => !c.taken &&
        coinWithin env (G.car.x_px, G.car.y_px)
          (frontWheelPos env G.car) (rearWheelPos env G.car) c) := by
  simp only [updateFuelAndPickups]
  split <;> simp [coinsLoop_snd]

theorem update_fuel_m (env : Env) (G : GameS) :
    (updateFuelAndPickups env G).fuel_m =
      if G.level.cans.any (fun c => !c.taken && canWithin env G.currentLevel
          (G.car.x_px, G.car.y_px) (frontWheelPos env G.car) (rearWheelPos env G.car) c)
      then FUEL_TANK_METERS
      else if |G.car.x_px - G.lastX_forFuel_px| > 0
        then max 0 (G.fuel_m - px2m |G.car.x_px - G.lastX_forFuel_px|)
        else G.fuel_m := by
  simp only [updateFuelAndPickups]
  split <;> simp [cansLoop_snd]

theorem step_level (env : Env) (dt : ℚ) (G : GameS) :
    (stepVehicle env dt G).level = G.level := by
  simp [stepVehicle]

theorem step_fuel_m (env : Env) (dt : ℚ) (G : GameS) :
    (stepVehicle env dt G).fuel_m = G.fuel_m := by
  simp [stepVehicle]

theorem endTick_level (hh : Bool) (G : GameS) :
    (endTick hh G).level = G.level := by
  unfold endTick
  simp only []
  split_ifs <;> rfl

theorem endTick_fuel_m (hh : Bool) (G : GameS) :
    (endTick hh G).fuel_m = G.fuel_m := by
  unfold endTick
  simp only []
  split_ifs <;> rfl

theorem canMark_taken (env : Env) (lvl : ℕ) (pos fw rw : ℚ × ℚ) (x : ℚ) :
    canMark env lvl pos fw rw (FuelCan.mk x true) = FuelCan.mk x true := by
  simp [canMark]

theorem coinMark_taken (env : Env) (pos fw rw : ℚ × ℚ) (x y : ℚ) :
    coinMark env pos fw rw (Coin.mk x y true) = Coin.mk x y true := by
  simp [coinMark]

theorem tick_can_mem (env : Env) (G : GameS) (x : ℚ) :
    FuelCan.mk x true ∈ G.level.cans → FuelCan.mk x true ∈ (tick env G).level.cans := by
  intro hmem
  simp only [tick, endTick_level, update_cans, step_level]
  exact List.mem_map.mpr ⟨FuelCan.mk x true, by simpa [step_level] using hmem,
    canMark_taken _ _ _ _ _ _⟩

theorem tick_coin_mem (env : Env) (G : GameS) (x y : ℚ) :
    Coin.mk x y true ∈ G.level.coins → Coin.mk x y true ∈ (tick env G).level.coins := by
  intro hmem
  simp only [tick, endTick_level, update_coins, step_level]
  exact List.mem_map.mpr ⟨Coin.mk x y true, by simpa [step_level] using hmem,
    coinMark_taken _ _ _ _ _ _⟩

theorem tick_iter_can_mem (env : Env) (G : GameS) (x : ℚ) (n : ℕ) :
    FuelCan.mk x true ∈ G.level.cans → FuelCan.mk x true ∈ ((tick env)^[n] G).level.cans := by
  induction n generalizing G with
  | zero => intro h; simpa using h
  | succ n ih =>
    intro h
    rw [Function.iterate_succ_apply]
    exact ih (tick env G) (tick_can_mem env G x h)

theorem tick_iter_coin_mem (env : Env) (G : GameS) (x y : ℚ) (n : ℕ) :
    Coin.mk x y true ∈ G.level.coins → Coin.mk x y true ∈ ((tick env)^[n] G).level.coins := by
  induction n generalizing G with
  | zero => intro h; simpa using h
  | succ n ih =>
    intro h
    rw [Function.iterate_succ_apply]
    exact ih (tick env G) (tick_coin_mem env G x y h)

/-- C4: with fuel > 0 and an input flag set, a tentatively grounded vehicle
gains thrust acceleration times dt resolved along the facing orientation
(the tentative angle the stepper computes before applying input) on both
velocity components plus the flip torque on angular velocity; an airborne
vehicle gets only the constant torque and no translational change; with
fuel exhausted the input changes nothing. -/
theorem thrust_grounded_airborne (env : Env) (fuel_m tempAngle dt vx vy angV : ℚ)
    (hf : 0 < fuel_m) :
    inputForces env fuel_m true tempAngle dt false true vx vy angV =
        (vx + 300 * dt * env.cos tempAngle, vy + 300 * dt * env.sin tempAngle, angV - 1.8 * dt)
  ∧ inputForces env fuel_m true tempAngle dt true false vx vy angV =
        (vx - 300 * dt * env.cos tempAngle, vy - 300 * dt * env.sin tempAngle, angV + 1.8 * dt)
  ∧ inputForces env fuel_m false tempAngle dt false true vx vy angV = (vx, vy, angV - 1.8 * dt)
  ∧ inputForces env fuel_m false tempAngle dt true false vx vy angV = (vx, vy, angV + 1.8 * dt)
  ∧ (∀ (fuel0 : ℚ) (onG pL pR : Bool), ¬ 0 < fuel0 →
        inputForces env fuel0 onG tempAngle dt pL pR vx vy angV = (vx, vy, angV)) := by
  refine ⟨?_, ?_, ?_, ?_, ?_⟩
  · simp [inputForces, hf]
  · simp [inputForces, hf]
  · simp [inputForces, hf]
  · simp [inputForces, hf]
  · intro fuel0 onG pL pR h
    simp [inputForces, h]

/-- C4 witness at concrete inputs. -/
theorem thrust_grounded_airborne_w :
    (0 : ℚ) < 1 ∧ inputForces envZero 1 false 0 1 false true 2 3 4 = (2, 3, 4 - 1.8 * 1) :=
  ⟨by norm_num, (thrust_grounded_airborne envZero 1 0 1 2 3 4 (by norm_num)).2.2.1⟩

/-- C10: with fuel > 0 the flip torque of the input section applies to the
angular velocity regardless of the tentative grounding state: forward input
subtracts the torque times dt, backward input adds it. -/
theorem torque_regardless_grounded (env : Env) (fuel_m tempAngle dt vx vy angV : ℚ)
    (onGroundTentative : Bool) (hf : 0 < fuel_m) :
    (inputForces env fuel_m onGroundTentative tempAngle dt false true vx vy angV).2.2 =
        angV - 1.8 * dt
  ∧ (inputForces env fuel_m onGroundTentative tempAngle dt true false vx vy angV).2.2 =
        angV + 1.8 * dt := by
  cases onGroundTentative <;> constructor <;> simp [inputForces, hf]

/-- C10 witness at concrete inputs, with the vehicle tentatively grounded. -/
theorem torque_regardless_grounded_w :
    (0 : ℚ) < 2 ∧ (inputForces envZero 2 true 0.3 1 false true 7 8 9).2.2 = 9 - 1.8 * 1 := by
  exact ⟨by norm_num, (torque_regardless_grounded envZero 2 0.3 1 7 8 9 true (by norm_num)).1⟩

/-- C5: the angle difference fed to the slope alignment is first wrapped by
the two while loops into [-3.14159, 3.14159], a value congruent to the
input modulo the full-turn constant 6.28318 and lying in the real interval
(-pi, pi]; the clamped change then applied to the orientation in a single
tick is bounded in magnitude by the alignment rate 4.5 * dt, as is the
total orientation change of any fixWheel call. -/
theorem wrap_angle_bounded_align (da dt : ℚ) (hdt : 0 ≤ dt) :
    (-3.14159 ≤ wrapAngle da ∧ wrapAngle da ≤ 3.14159)
  ∧ ((wrapAngle da : ℝ) ∈ Set.Ioc (-Real.pi) Real.pi)
  ∧ (∃ k : ℤ, wrapAngle da = da - k * 6.28318)
  ∧ |clampf (wrapAngle da) (-(4.5 * dt)) (4.5 * dt)| ≤ 4.5 * dt
  ∧ (∀ (env : Env) (lvl : ℕ) (V : Vehicle) (wp : ℚ × ℚ) (n : ℕ),
        |(fixWheel env lvl dt V wp n).1.angle - V.angle| ≤ 4.5 * dt) := by
  have hle := wrapAngle_le da
  have hge := wrapAngle_ge da
  have hrle : ((wrapAngle da : ℚ) : ℝ) ≤ ((3.14159 : ℚ) : ℝ) := by exact_mod_cast hle
  have hrge : ((-3.14159 : ℚ) : ℝ) ≤ ((wrapAngle da : ℚ) : ℝ) := by exact_mod_cast hge
  have hpi : ((3.14159 : ℚ) : ℝ) < Real.pi := by
    have := Real.pi_gt_d6
    have hc : ((3.14159 : ℚ) : ℝ) = (3.14159 : ℝ) := by norm_num
    rw [hc]
    linarith
  have hr : (4.5 : ℚ) * dt ≥ 0 := by linarith
  refine ⟨⟨hge, hle⟩, ⟨?_, ?_⟩, wrapAngle_congruent da, clampf_abs_le _ _ hr, ?_⟩
  · have hc : ((-3.14159 : ℚ) : ℝ) = (-3.14159 : ℝ) := by norm_num
    rw [hc] at hrge
    linarith
  · have hc : ((3.14159 : ℚ) : ℝ) = (3.14159 : ℝ) := by norm_num
    rw [hc] at hrle
    have : (3.14159 : ℝ) < Real.pi := by rw [← hc]; exact hpi
    linarith
  · intro env lvl V wp n
    rw [fixWheel]
    split
    · simp only []
      have : V.angle + clampf (wrapAngle (env.atan (sampleGround env wp.1 lvl).slope - V.angle))
          (-(4.5 * dt)) (4.5 * dt) - V.angle =
          clampf (wrapAngle (env.atan (sampleGround env wp.1 lvl).slope - V.angle))
            (-(4.5 * dt)) (4.5 * dt) := by ring
      rw [this]
      exact clampf_abs_le _ _ hr
    · simp only []
      rw [sub_self, abs_zero]
      linarith

/-- C5 witness: the wrap and clamp facts applied at da = 10 with the fixed
tick duration. -/
theorem wrap_angle_bounded_align_w :
    (0 : ℚ) ≤ 1 / 120 ∧ (∃ k : ℤ, wrapAngle 10 = 10 - k * 6.28318) ∧
      |clampf (wrapAngle 10) (-(4.5 * (1 / 120))) (4.5 * (1 / 120))| ≤ 4.5 * (1 / 120) :=
  ⟨by norm_num, (wrap_angle_bounded_align 10 (1 / 120) (by norm_num)).2.2.1,
    (wrap_angle_bounded_align 10 (1 / 120) (by norm_num)).2.2.2.1⟩

/-- C8: for every x and level index 0..4 the terrain sampler equals the
spec-side reference: a constant baseline minus three sinusoids whose
amplitudes and spatial frequencies each increase strictly with the level
index, with the slope the forward finite difference over the fixed delta. -/
theorem sampleGround_matches_spec :
    (∀ (env : Env) (x_px : ℚ) (levelIndex : ℕ), levelIndex ≤ 4 →
        sampleGround env x_px levelIndex = sampleGroundSpec env x_px levelIndex)
  ∧ (∀ (i : Fin 3) (l lp : ℕ), l < lp → lp ≤ 4 →
        specAmp i l < specAmp i lp ∧ specFreq i l < specFreq i lp)
  ∧ (∀ (env : Env) (x_px : ℚ) (levelIndex : ℕ), levelIndex ≤ 4 →
        (sampleGround env x_px levelIndex).slope =
          ((sampleGroundSpec env (x_px + specEps) levelIndex).y -
            (sampleGroundSpec env x_px levelIndex).y) / specEps) := by
  have heq : ∀ (env : Env) (x_px : ℚ) (levelIndex : ℕ),
      groundHeight env x_px levelIndex = specHeight env x_px levelIndex := by
    intro env x lvl
    simp only [groundHeight, specHeight, specBaseline, specAmp, specFreq, specPhase,
      Fin.sum_univ_three, WINDOW_H]
    ring_nf
  refine ⟨?_, ?_, ?_⟩
  · intro env x lvl hl
    simp only [sampleGround, sampleGroundSpec, specEps, heq]
  · intro i l lp hl hlp
    have hc : (l : ℚ) < (lp : ℚ) := by exact_mod_cast hl
    fin_cases i <;> constructor <;> (simp only [specAmp, specFreq]; nlinarith)
  · intro env x lvl hl
    simp only [sampleGround, sampleGroundSpec, specEps, heq]

/-- C8 witness: the sampler equality at x = 5, level 0, and strict growth of
the first amplitude and frequency from level 0 to level 1. -/
theorem sampleGround_matches_spec_w :
    (0 : ℕ) ≤ 4 ∧ sampleGround envZero 5 0 = sampleGroundSpec envZero 5 0 ∧
      (specAmp 0 0 < specAmp 0 1 ∧ specFreq 0 0 < specFreq 0 1) :=
  ⟨by norm_num, sampleGround_matches_spec.1 envZero 5 0 (by norm_num),
    sampleGround_matches_spec.2.1 0 0 1 (by norm_num) (by norm_num)⟩

/-- C6: starting from fuel in [0, tank] the tracker keeps fuel in
[0, tank]; when no untaken can is within pickup range this tick, the new
fuel is exactly the old one minus the distance-based consumption floored
at zero, hence non-increasing; the physics stepper and the end-of-tick
bookkeeping never change fuel at all. -/
theorem fuel_range_monotone (env : Env) (S : GameS)
    (h0 : 0 ≤ S.fuel_m) (h1 : S.fuel_m ≤ FUEL_TANK_METERS) :
    (0 ≤ (updateFuelAndPickups env S).fuel_m ∧
      (updateFuelAndPickups env S).fuel_m ≤ FUEL_TANK_METERS)
  ∧ ((∀ c ∈ S.level.cans, c.taken = false →
        canWithin env S.currentLevel (S.car.x_px, S.car.y_px)
          (frontWheelPos env S.car) (rearWheelPos env S.car) c = false) →
      ((updateFuelAndPickups env S).fuel_m =
          max 0 (S.fuel_m - px2m |S.car.x_px - S.lastX_forFuel_px|) ∧
        (updateFuelAndPickups env S).fuel_m ≤ S.fuel_m))
  ∧ (∀ (dt : ℚ) (G : GameS), (stepVehicle env dt G).fuel_m = G.fuel_m)
  ∧ (∀ (hh : Bool) (G : GameS), (endTick hh G).fuel_m = G.fuel_m) := by
  have hcons : 0 ≤ px2m |S.car.x_px - S.lastX_forFuel_px| := by
    rw [px2m, PPM]
    positivity
  refine ⟨?_, ?_, fun dt G => step_fuel_m env dt G, fun hh G => endTick_fuel_m hh G⟩
  · rw [update_fuel_m]
    split_ifs with hany hdx
    · constructor
      · rw [FUEL_TANK_METERS]; norm_num
      · exact le_rfl
    · constructor
      · exact le_max_left _ _
      · exact max_le (by linarith [show (0:ℚ) ≤ FUEL_TANK_METERS by rw [FUEL_TANK_METERS]; norm_num])
          (by linarith)
    · exact ⟨h0, h1⟩
  · intro hnone
    have hany : ¬ S.level.cans.any (fun c => !c.taken && canWithin env S.currentLevel
        (S.car.x_px, S.car.y_px) (frontWheelPos env S.car) (rearWheelPos env S.car) c) := by
      rw [List.any_eq_true]
      rintro ⟨c, hc, hp⟩
      rw [Bool.and_eq_true, Bool.not_eq_eq_eq_not, Bool.not_true] at hp
      have := hnone c hc hp.1
      rw [this] at hp
      exact Bool.false_ne_true hp.2
    rw [update_fuel_m, if_neg hany]
    split_ifs with hdx
    · exact ⟨rfl, max_le (by linarith) (by linarith)⟩
    · have hz : |S.car.x_px - S.lastX_forFuel_px| = 0 := le_antisymm (not_lt.mp hdx) (abs_nonneg _)
      rw [hz]
      constructor
      · rw [px2m, PPM]
        norm_num
        exact h0
      · exact le_rfl

/-- C6 witness: applied at a state with no cans in range (empty can list)
and fuel 0, evaluating the no-pickup fuel formula. -/
theorem fuel_range_monotone_w :
    (0 : ℚ) ≤ S0.fuel_m ∧ S0.fuel_m ≤ FUEL_TANK_METERS ∧
      (updateFuelAndPickups envFar S0).fuel_m =
        max 0 (S0.fuel_m - px2m |S0.car.x_px - S0.lastX_forFuel_px|) :=
  ⟨by norm_num [S0], by norm_num [S0, FUEL_TANK_METERS],
    ((fuel_range_monotone envFar S0 (by norm_num [S0]) (by norm_num [S0, FUEL_TANK_METERS])).2.1
      (by simp [S0])).1⟩

theorem endTick_timer (hh : Bool) (G : GameS) :
    (endTick hh G).fuel_out_timer = timerStep G.fuel_m G.fuel_out_timer := by
  unfold endTick
  simp only []
  split_ifs <;> rfl

theorem timerStep_pos (fuel_m timer : ℚ) (hf : 0 < fuel_m) :
    timerStep fuel_m timer = -1 := by
  rw [timerStep, if_neg (by linarith)]

theorem timerSeq_closed (k : ℕ) (hk : k ≤ 600) :
    timerSeq (k + 1) = 5 - (k : ℚ) / 120 := by
  induction k with
  | zero => norm_num [timerSeq, timerStep]
  | succ k ih =>
    have hk600 : k ≤ 600 := by omega
    have hk599 : (k : ℚ) ≤ 599 := by exact_mod_cast (show k ≤ 599 by omega)
    have hpos : ¬ (5 - (k : ℚ) / 120 < 0) := by
      push_neg
      linarith
    rw [timerSeq, ih hk600, timerStep, if_pos le_rfl, if_neg hpos, DT_FIXED]
    push_cast
    ring

/-- C7: the fuel-out transition is a grace countdown: any tick with
positive fuel disarms the timer so the fuel-out trigger cannot fire (a
refill mid-countdown resets it), the trigger firing forces the GameOver
screen, and under sustained zero fuel the armed timer stays positive for
600 ticks and first reaches the firing value 0 on the 601st consecutive
zero-fuel tick. -/
theorem fuel_out_grace_policy :
    (∀ (fuel_m timer : ℚ), 0 < fuel_m → timerStep fuel_m timer = -1 ∧
        ¬ (timerStep fuel_m timer ≤ 0 ∧ (-1 : ℚ) < timerStep fuel_m timer))
  ∧ (∀ (hh : Bool) (S : GameS), S.screen = Screen.Playing → 0 < S.fuel_m →
        S.headHitGround = false → hh = false →
        ((endTick hh S).fuel_out_timer = -1 ∧ (endTick hh S).screen ≠ Screen.GameOver))
  ∧ (∀ (hh : Bool) (S : GameS),
        timerStep S.fuel_m S.fuel_out_timer ≤ 0 →
        (-1 : ℚ) < timerStep S.fuel_m S.fuel_out_timer →
        (endTick hh S).screen = Screen.GameOver)
  ∧ timerSeq 0 = -1
  ∧ (∀ k : ℕ, k ≤ 599 → 0 < timerSeq (k + 1) ∧
      ¬ (timerSeq (k + 1) ≤ 0 ∧ (-1 : ℚ) < timerSeq (k + 1)))
  ∧ (timerSeq 601 = 0 ∧ timerSeq 601 ≤ 0 ∧ (-1 : ℚ) < timerSeq 601) := by
  refine ⟨?_, ?_, ?_, rfl, ?_, ?_⟩
  · intro f t hf
    rw [timerStep_pos f t hf]
    refine ⟨rfl, ?_⟩
    rintro ⟨h1, h2⟩
    linarith
  · intro hh S hplay hf hhit hhh
    refine ⟨by rw [endTick_timer, timerStep_pos _ _ hf], ?_⟩
    unfold endTick
    simp only []
    rw [timerStep_pos _ _ hf, hhit, hhh]
    split_ifs <;> simp_all
  · intro hh S h1 h2
    unfold endTick
    simp only []
    split_ifs <;> simp_all
  · intro k hk
    have hc : timerSeq (k + 1) = 5 - (k : ℚ) / 120 := timerSeq_closed k (by omega)
    have hk599 : (k : ℚ) ≤ 599 := by exact_mod_cast hk
    have hpos : 0 < timerSeq (k + 1) := by
      rw [hc]
      linarith
    refine ⟨hpos, ?_⟩
    rintro ⟨hle, _⟩
    linarith
  · have h601 : timerSeq 601 = 0 := by
      have := timerSeq_closed 600 le_rfl
      rw [show (601 : ℕ) = 600 + 1 from rfl, this]
      norm_num
    exact ⟨h601, by rw [h601], by rw [h601]; norm_num⟩

/-- C7 witness: a refill disarms the timer mid-countdown, the timer is
still positive on the 600th consecutive zero-fuel tick, and it reaches the
firing value 0 on the 601st. -/
theorem fuel_out_grace_policy_w :
    ((0 : ℚ) < 7 ∧ timerStep 7 2.5 = -1)
  ∧ ((599 : ℕ) ≤ 599 ∧ 0 < timerSeq 600)
  ∧ timerSeq 601 = 0 :=
  ⟨⟨by norm_num, (fuel_out_grace_policy.1 7 2.5 (by norm_num)).1⟩,
    ⟨le_rfl, (fuel_out_grace_policy.2.2.2.2.1 599 le_rfl).1⟩,
    fuel_out_grace_policy.2.2.2.2.2.1⟩

/-- C2: an untaken can whose nearest anchor distance is within the pickup
radius this tick leaves the tracker with fuel exactly at the full tank
value and the can marked taken, and a taken can or coin stays taken over
any number of further ticks; an untaken coin within its radius is marked
taken, and the coin counter grows by exactly the number of untaken coins
in radius, so each coin contributes exactly once per attempt. -/
theorem pickup_once_per_attempt (env : Env) (S : GameS) :
    (∀ c ∈ S.level.cans, c.taken = false →
        canWithin env S.currentLevel (S.car.x_px, S.car.y_px)
          (frontWheelPos env S.car) (rearWheelPos env S.car) c = true →
        ((updateFuelAndPickups env S).fuel_m = FUEL_TANK_METERS ∧
          FuelCan.mk c.x_px true ∈ (updateFuelAndPickups env S).level.cans))
  ∧ (∀ (n : ℕ) (x : ℚ), FuelCan.mk x true ∈ S.level.cans →
        FuelCan.mk x true ∈ ((tick env)^[n] S).level.cans)
  ∧ (∀ c ∈ S.level.coins, c.taken = false →
        coinWithin env (S.car.x_px, S.car.y_px)
          (frontWheelPos env S.car) (rearWheelPos env S.car) c = true →
        Coin.mk c.x_px c.y_px true ∈ (updateFuelAndPickups env S).level.coins)
  ∧ ((updateFuelAndPickups env S).coinsCollected =
        S.coinsCollected + S.level.coins.countP (fun c => !c.taken &&
          coinWithin env (S.car.x_px, S.car.y_px)
            (frontWheelPos env S.car) (rearWheelPos env S.car) c))
  ∧ (∀ (n : ℕ) (x y : ℚ), Coin.mk x y true ∈ S.level.coins →
        Coin.mk x y true ∈ ((tick env)^[n] S).level.coins) := by
  refine ⟨?_, fun n x h => tick_iter_can_mem env S x n h, ?_,
    update_coinsCollected env S, fun n x y h => tick_iter_coin_mem env S x y n h⟩
  · intro c hc htaken hwithin
    constructor
    · rw [update_fuel_m, if_pos]
      rw [List.any_eq_true]
      exact ⟨c, hc, by rw [Bool.and_eq_true, htaken, hwithin]; exact ⟨rfl, rfl⟩⟩
    · rw [update_cans]
      refine List.mem_map.mpr ⟨c, hc, ?_⟩
      rw [canMark, if_neg (by rw [htaken]; exact Bool.false_ne_true), if_pos hwithin]
  · intro c hc htaken hwithin
    rw [update_coins]
    refine List.mem_map.mpr ⟨c, hc, ?_⟩
    rw [coinMark, if_neg (by rw [htaken]; exact Bool.false_ne_true), if_pos hwithin]

/-- C2 witness: in the concrete state Swit under envZero the untaken can at
x = 800 is in range, so fuel comes back as the full tank and the can is
taken; the already-taken can and coin persist over further ticks. -/
theorem pickup_once_per_attempt_w :
    (FuelCan.mk 800 false ∈ Swit.level.cans ∧ (FuelCan.mk 800 false).taken = false)
  ∧ ((updateFuelAndPickups envZero Swit).fuel_m = FUEL_TANK_METERS ∧
      FuelCan.mk (FuelCan.mk 800 false).x_px true ∈ (updateFuelAndPickups envZero Swit).level.cans)
  ∧ FuelCan.mk 160 true ∈ ((tick envZero)^[2] Swit).level.cans
  ∧ Coin.mk 240 526 true ∈ ((tick envZero)^[3] Swit).level.coins :=
  ⟨⟨by norm_num [Swit], rfl⟩,
    (pickup_once_per_attempt envZero Swit).1 (FuelCan.mk 800 false) (by norm_num [Swit]) rfl
      (by norm_num [canWithin, envZero]),
    (pickup_once_per_attempt envZero Swit).2.1 2 160 (by norm_num [Swit]),
    (pickup_once_per_attempt envZero Swit).2.2.2.2 3 240 526 (by norm_num [Swit])⟩

/-- C1 counterexample: at the concrete state S0 (fuel-out countdown
expiring on the very tick the car sits exactly on the finish line) the
end-of-tick bookkeeping adds the attempt distance and coins to the run
totals twice within that single tick, once in the finish block and once in
the game-over block, whatever the head-hit test returns. -/
theorem totals_double_add_cx :
    S0.totalDistance_m = 0 ∧ S0.levelDistance_m = 100 ∧ S0.totalCoins = 0 ∧ S0.coinsCollected = 5
  ∧ (endTick false S0).totalDistance_m = 200 ∧ (endTick false S0).totalCoins = 10
  ∧ (endTick true S0).totalDistance_m = 200 ∧ (endTick true S0).totalCoins = 10 := by
  refine ⟨rfl, rfl, rfl, rfl, ?_, ?_, ?_, ?_⟩ <;> norm_num [endTick, timerStep, S0, DT_FIXED]

/-- C1 amended: on a Playing tick the end-of-tick bookkeeping adds the
attempt distance and coins to the run totals exactly once when exactly one
of the finish condition and the game-over condition (crash recorded or
fuel-out timer expiry) holds, leaves them unchanged when neither holds, and
adds them twice when both hold on the same tick; any terminal condition
moves the screen off Playing, so no later tick of the attempt adds again. -/
theorem totals_terminal_accounting (hh : Bool) (S : GameS)
    (hplay : S.screen = Screen.Playing) :
    ((S.car.x_px ≥ S.level.finishX_px ∧
        ¬ ((timerStep S.fuel_m S.fuel_out_timer ≤ 0 ∧
              (-1 : ℚ) < timerStep S.fuel_m S.fuel_out_timer) ∨
            (S.headHitGround || hh) = true)) →
      ((endTick hh S).totalDistance_m = S.totalDistance_m + S.levelDistance_m ∧
        (endTick hh S).totalCoins = S.totalCoins + S.coinsCollected ∧
        (endTick hh S).screen ≠ Screen.Playing))
  ∧ ((¬ S.car.x_px ≥ S.level.finishX_px ∧
        ((timerStep S.fuel_m S.fuel_out_timer ≤ 0 ∧
            (-1 : ℚ) < timerStep S.fuel_m S.fuel_out_timer) ∨
          (S.headHitGround || hh) = true)) →
      ((endTick hh S).totalDistance_m = S.totalDistance_m + S.levelDistance_m ∧
        (endTick hh S).totalCoins = S.totalCoins + S.coinsCollected ∧
        (endTick hh S).screen = Screen.GameOver))
  ∧ ((S.car.x_px ≥ S.level.finishX_px ∧
        ((timerStep S.fuel_m S.fuel_out_timer ≤ 0 ∧
            (-1 : ℚ) < timerStep S.fuel_m S.fuel_out_timer) ∨
          (S.headHitGround || hh) = true)) →
      ((endTick hh S).totalDistance_m = S.totalDistance_m + 2 * S.levelDistance_m ∧
        (endTick hh S).totalCoins = S.totalCoins + 2 * S.coinsCollected ∧
        (endTick hh S).screen = Screen.GameOver))
  ∧ ((¬ S.car.x_px ≥ S.level.finishX_px ∧
        ¬ ((timerStep S.fuel_m S.fuel_out_timer ≤ 0 ∧
              (-1 : ℚ) < timerStep S.fuel_m S.fuel_out_timer) ∨
            (S.headHitGround || hh) = true)) →
      ((endTick hh S).totalDistance_m = S.totalDistance_m ∧
        (endTick hh S).totalCoins = S.totalCoins ∧
        (endTick hh S).screen = Screen.Playing)) := by
  refine ⟨?_, ?_, ?_, ?_⟩ <;> rintro ⟨h1, h2⟩ <;>
    (unfold endTick; simp only []) <;> split_ifs <;> simp_all <;>
    exact ⟨by ring, by omega⟩

/-- C1 witness: with the countdown disarmed the same finish-line state adds
the totals exactly once and leaves the Playing screen. -/
theorem totals_terminal_accounting_w :
    ({ S0 with fuel_out_timer := -1 } : GameS).screen = Screen.Playing ∧
      ((endTick false { S0 with fuel_out_timer := -1 }).totalDistance_m = 0 + 100 ∧
        (endTick false { S0 with fuel_out_timer := -1 }).totalCoins = 0 + 5 ∧
        (endTick false { S0 with fuel_out_timer := -1 }).screen ≠ Screen.Playing) :=
  ⟨rfl, (totals_terminal_accounting false { S0 with fuel_out_timer := -1 } rfl).1
    ⟨by norm_num [S0], by norm_num [S0, timerStep]⟩⟩

/-- C9 counterexample: at the concrete state S0 the car sits exactly on the
finish threshold, yet the tick ends on the GameOver screen because the
fuel-out expiry fires on the same tick and overrides the finish outcome,
so reaching the threshold does not always end the attempt in success. -/
theorem finish_overlap_cx :
    S0.car.x_px ≥ S0.level.finishX_px ∧ S0.headHitGround = false
  ∧ (endTick false S0).screen = Screen.GameOver
  ∧ (endTick false S0).screen ≠ Screen.LevelComplete
  ∧ (endTick false S0).screen ≠ Screen.GameCompleted := by
  refine ⟨by norm_num [S0], rfl, ?_, ?_, ?_⟩ <;>
    (norm_num [endTick, timerStep, S0, DT_FIXED]) <;> decide

/-- C9 amended: on a Playing tick on which no game-over condition fires,
the attempt ends in success (LevelComplete or GameCompleted) exactly when
the horizontal position is at or beyond the finish threshold, with exact
equality counting as finished; the finish threshold built for each level
0..4 equals the level length converted to position units. -/
theorem finish_boundary_amended (env : Env) (hh : Bool) (S : GameS)
    (hplay : S.screen = Screen.Playing)
    (hng : ¬ ((timerStep S.fuel_m S.fuel_out_timer ≤ 0 ∧
          (-1 : ℚ) < timerStep S.fuel_m S.fuel_out_timer) ∨ (S.headHitGround || hh) = true)) :
    (((endTick hh S).screen = Screen.LevelComplete ∨
        (endTick hh S).screen = Screen.GameCompleted) ↔ S.car.x_px ≥ S.level.finishX_px)
  ∧ (S.car.x_px = S.level.finishX_px →
      ((endTick hh S).screen = Screen.LevelComplete ∨
        (endTick hh S).screen = Screen.GameCompleted))
  ∧ (∀ (idx : ℕ) (G : GameS), idx ≤ 4 →
      ((buildLevel env idx G).level.finishX_px = m2px ((buildLevel env idx G).level.length_m) ∧
        (buildLevel env idx G).level.length_m = LEVEL_METERS idx)) := by
  have hiff : ((endTick hh S).screen = Screen.LevelComplete ∨
      (endTick hh S).screen = Screen.GameCompleted) ↔ S.car.x_px ≥ S.level.finishX_px := by
    unfold endTick
    simp only []
    split_ifs <;> simp_all
  refine ⟨hiff, ?_, ?_⟩
  · intro he
    exact hiff.mpr (le_of_eq he.symm)
  · intro idx G hidx
    constructor
    · simp [buildLevel]
    · simp [buildLevel]

/-- C9 witness: the success-iff-threshold equivalence applied at the
concrete state Swit, and the threshold of the freshly built level 0. -/
theorem finish_boundary_amended_w :
    Swit.screen = Screen.Playing ∧
      ((((endTick false Swit).screen = Screen.LevelComplete ∨
          (endTick false Swit).screen = Screen.GameCompleted) ↔
        Swit.car.x_px ≥ Swit.level.finishX_px) ∧
        ((buildLevel envZero 0 Swit).level.finishX_px =
            m2px ((buildLevel envZero 0 Swit).level.length_m) ∧
          (buildLevel envZero 0 Swit).level.length_m = LEVEL_METERS 0)) :=
  ⟨rfl, (finish_boundary_amended envZero false Swit rfl (by norm_num [timerStep, Swit])).1,
    (finish_boundary_amended envZero false Swit rfl
      (by norm_num [timerStep, Swit])).2.2 0 Swit (by norm_num)⟩
